import Mathlib

/-!
Verification of the adcm_client object layer (`src/adcm_client/objects.py`)
against its natural-language specification.

The repository file in scope defines the entity classes (Bundle, Cluster,
Service, Action, Task, Job, ...) of a REST client.  We shallowly embed the
pure decision logic those classes contain: version comparison and the
version gate, the polling loop for task/job status, task failure
classification, the config-diff merge, diagnostic log collection and the
error-classification predicates.  Network effects are modelled by explicit
inputs (a status trace, a fetch oracle, a remote-config state).
-/

namespace ADCM

/-! ## Version strings and their numeric order

`version_utils.rpm.compare_versions` is an external collaborator; the spec
fixes its behaviour on the dotted date-coded version strings used here:
componentwise numeric comparison, a total order, returning -1/0/1. -/

/-- Split a character list on the '.' separator. -/
def splitDots : List Char → List (List Char)
  | [] => [[]]
  | c :: rest =>
      match splitDots rest with
      | [] => [[c]]
      | w :: ws => if c = '.' then [] :: w :: ws else (c :: w) :: ws

/-- Numeric value of one all-digit version component. -/
def digitsToNat (cs : List Char) : Nat :=
  cs.foldl (fun acc c => acc * 10 + (c.toNat - 48)) 0

/-- Parse a dotted version string into its numeric components
(e.g. "2020.09.25.13" becomes [2020, 9, 25, 13]). -/
def parseVersion (s : String) : List Nat :=
  (splitDots s.toList).map digitsToNat

/-- Componentwise numeric comparison of version component lists. -/
def cmpNatList : List Nat → List Nat → Ordering
  | [], [] => Ordering.eq
  | [], _ :: _ => Ordering.lt
  | _ :: _, [] => Ordering.gt
  | a :: as, b :: bs =>
      if a < b then Ordering.lt
      else if b < a then Ordering.gt
      else cmpNatList as bs

/-- Modelled from the spec: `rpm.compare_versions` from the external
`version_utils` package — the Version string's numeric total order,
returning -1, 0 or 1. -/
def compare_versions (a b : String) : Int :=
  match cmpNatList (parseVersion a) (parseVersion b) with
  | Ordering.lt => -1
  | Ordering.eq => 0
  | Ordering.gt => 1

theorem cmpNatList_swap (a b : List Nat) :
    cmpNatList b a = (cmpNatList a b).swap := by
  induction a generalizing b with
  | nil => cases b <;> rfl
  | cons x xs ih =>
    cases b with
    | nil => rfl
    | cons y ys =>
      simp only [cmpNatList]
      rcases Nat.lt_trichotomy x y with h | h | h
      · simp [h, Nat.lt_asymm h, Ordering.swap]
      · subst h
        simp [Nat.lt_irrefl, ih ys]
      · simp [h, Nat.lt_asymm h, Ordering.swap]

theorem cmpNatList_eq_symm {a b : List Nat}
    (h : cmpNatList a b = Ordering.eq) : cmpNatList b a = Ordering.eq := by
  rw [cmpNatList_swap, h]; rfl

theorem compare_versions_neg_iff (a b : String) :
    compare_versions a b = -1 ↔
      cmpNatList (parseVersion a) (parseVersion b) = Ordering.lt := by
  unfold compare_versions
  cases h : cmpNatList (parseVersion a) (parseVersion b) <;> simp

/-! ## The poller

`BaseAPIObject.wait_for_attr` lives in `adcm_client/base.py`, which is not
part of the sources in scope; only its terminal-status arguments are.  We
model it from the spec: repeatedly re-fetch the status field at a fixed
short interval until the value is a member of the terminal set or the
deadline is exceeded; on timeout fail with `WaitTimeout`.  Time is
discretised into polling steps: `trace k` is the status the k-th fetch
returns, and the timeout is the number of polls the deadline allows. -/

/-- Errors surfaced by the task/job waiting machinery. -/
inductive PollError where
  | WaitTimeout
  | TaskFailed
deriving DecidableEq, Repr

/-- Modelled from the spec: `wait_for_attr` from `adcm_client.base` —
poll `trace` starting at step `k`, with `fuel` polls left before the
deadline, until the status is a member of `ends`. -/
def wait_for_attr (trace : Nat → String) (ends : List String) :
    Nat → Nat → Except PollError String
  | _, 0 => Except.error PollError.WaitTimeout
  | k, fuel + 1 =>
      if trace k ∈ ends then Except.ok (trace k)
      else wait_for_attr trace ends (k + 1) fuel

namespace Task

/-- The `Task._END_STATUSES` list from the source: the statuses `Task.wait`
treats as terminal. -/
def END_STATUSES : List String := ["failed", "success"]

/-- Model of `Task.wait`: poll the task's status until it is a member of
`Task._END_STATUSES` or the timeout elapses, and return the final status.
(The `log_failed` diagnostic side effect is modelled separately by
`collect_logs`.) -/
def wait (trace : Nat → String) (timeout : Nat) : Except PollError String :=
  wait_for_attr trace END_STATUSES 0 timeout

/-- Model of `Task.try_wait`: wait, then raise `TaskFailed` when the final status
is "failed". -/
def try_wait (trace : Nat → String) (timeout : Nat) : Except PollError String :=
  match wait trace timeout with
  | Except.ok status =>
      if status = "failed" then Except.error PollError.TaskFailed
      else Except.ok status
  | Except.error e => Except.error e

end Task

namespace Job

/-- The `Job._END_STATUSES` list from the source. -/
def END_STATUSES : List String := ["failed", "success"]

/-- Model of `Job.wait`: poll the job's status until it is a member of
`Job._END_STATUSES` or the timeout elapses. -/
def wait (trace : Nat → String) (timeout : Nat) : Except PollError String :=
  wait_for_attr trace END_STATUSES 0 timeout

end Job

theorem wait_for_attr_timeout (trace : Nat → String) (ends : List String) :
    ∀ fuel start, (∀ j, j < fuel → trace (start + j) ∉ ends) →
      wait_for_attr trace ends start fuel = Except.error PollError.WaitTimeout := by
  intro fuel
  induction fuel with
  | zero => intro start _; rfl
  | succ n ih =>
    intro start h
    have h0 : trace start ∉ ends := by
      have := h 0 (Nat.succ_pos n)
      simpa using this
    simp only [wait_for_attr, if_neg h0]
    apply ih
    intro j hj
    have := h (j + 1) (Nat.succ_lt_succ hj)
    simpa [Nat.add_assoc, Nat.add_comm 1 j] using this

theorem wait_for_attr_first_hit (trace : Nat → String) (ends : List String) :
    ∀ fuel start k, k < fuel → (∀ j, j < k → trace (start + j) ∉ ends) →
      trace (start + k) ∈ ends →
      wait_for_attr trace ends start fuel = Except.ok (trace (start + k)) := by
  intro fuel
  induction fuel with
  | zero => intro start k hk; exact absurd hk (Nat.not_lt_zero k)
  | succ n ih =>
    intro start k hk hbefore hhit
    cases k with
    | zero =>
      simp only [Nat.add_zero] at hhit
      simp only [wait_for_attr, if_pos hhit, Nat.add_zero]
    | succ m =>
      have h0 : trace start ∉ ends := by
        have := hbefore 0 (Nat.succ_pos m)
        simpa using this
      simp only [wait_for_attr, if_neg h0]
      have hres := ih (start + 1) m (Nat.lt_of_succ_lt_succ hk)
        (fun j hj => by
          have := hbefore (j + 1) (Nat.succ_lt_succ hj)
          simpa [Nat.add_assoc, Nat.add_comm 1 j] using this)
        (by simpa [Nat.add_assoc, Nat.add_comm 1 m] using hhit)
      simpa [Nat.add_assoc, Nat.add_comm 1 m] using hres

/-! ## The config-diff merge

`_BaseObject.config_set_diff` reads the current config, merges the
supplied diff into it with the nested helper `update`, and writes the
merged result via `config_set`.  Configs are JSON-like documents; the
merge only inspects whether values are mappings, so we embed values as
an inductive with a leaf case and a mapping case (a key-ordered
association list, mirroring Python dict insertion order with unique
keys). -/

/-- A JSON-like config value: a leaf (string/number/... payload,
opaque to the merge) or a mapping. -/
inductive Value where
  | leaf (s : String)
  | obj (entries : List (String × Value))

/-- First-occurrence lookup in a mapping, Python's `d[key]` /
`key in d`. -/
def lookup : List (String × Value) → String → Option Value
  | [], _ => none
  | (k', v) :: rest, k => if k' = k then some v else lookup rest k

/-- Python's `d[key] = v` on a dict: replace the value at `key` in
place, or append the binding when `key` is absent. -/
def setKey : List (String × Value) → String → Value → List (String × Value)
  | [], k, v => [(k, v)]
  | (k', v') :: rest, k, v =>
      if k' = k then (k, v) :: rest else (k', v') :: setKey rest k v

mutual

/-- One step of the `update` helper inside `config_set_diff`:
`d[key] = update(d[key], value)` when both the old and the new value are
mappings, `d[key] = value` otherwise. -/
def updateEntry (d : List (String × Value)) (k : String) (v : Value) :
    List (String × Value) :=
  match v with
  | Value.leaf s => setKey d k (Value.leaf s)
  | Value.obj uo =>
      match lookup d k with
      | some (Value.obj dobj) => setKey d k (Value.obj (updateObj dobj uo))
      | some (Value.leaf _) => setKey d k (Value.obj uo)
      | none => setKey d k (Value.obj uo)

/-- The `update` helper of `_BaseObject.config_set_diff`: fold the diff
`u` into `d`, entry by entry in `u`'s order. -/
def updateObj (d : List (String × Value)) (u : List (String × Value)) :
    List (String × Value) :=
  match u with
  | [] => d
  | (k, v) :: rest => updateObj (updateEntry d k v) rest

end

/-- The remote config state an object's config endpoints act on. -/
structure RemoteConfig where
  config : List (String × Value)

namespace BaseObject

/-- Model of `_BaseObject.config`: read the current config from the server. -/
def config (r : RemoteConfig) : List (String × Value) := r.config

/-- Model of `_BaseObject.config_set`: write a complete config, returning the
stored config (the server's history entry echoes it back). -/
def config_set (_r : RemoteConfig) (data : List (String × Value)) :
    RemoteConfig × List (String × Value) :=
  ({ config := data }, data)

/-- Model of `_BaseObject.config_set_diff`: read the current config, merge the
diff into it client-side with `update`, and write the merged result. -/
def config_set_diff (r : RemoteConfig) (data : List (String × Value)) :
    RemoteConfig × List (String × Value) :=
  config_set r (updateObj (config r) data)

end BaseObject

/-! ## The version gate -/

/-- The two behaviour variants a version gate chooses between. -/
inductive Impl where
  | legacy
  | modern
deriving DecidableEq, Repr

/-- Modelled from the spec: the `legacy_server_implementaion` decorator
from `adcm_client.base` — select the legacy implementation when the
server's version compares below the threshold, the modern one
otherwise. -/
def legacy_server_implementaion (server threshold : String) : Impl :=
  if compare_versions server threshold < 0 then Impl.legacy else Impl.modern

/-- How a Service is addressed by `Cluster.service`/`service_list`. -/
inductive PathKind where
  | subobject
  | toplevel
deriving DecidableEq, Repr

namespace Cluster

/-- The threshold version on `Cluster.service`/`service_list`
(`@legacy_server_implementaion(..., '2020.09.25.13')`). -/
def SERVICE_THRESHOLD : String := "2020.09.25.13"

/-- Which implementation `Cluster.service`/`Cluster.service_list` run:
the legacy `_service_old`/`_service_list_old` go through `_subobject`
(the path nested under the cluster instance), the modern ones through
`_child_obj` (the top-level filterable collection). -/
def service_path (server : String) : PathKind :=
  match legacy_server_implementaion server SERVICE_THRESHOLD with
  | Impl.legacy => PathKind.subobject
  | Impl.modern => PathKind.toplevel

end Cluster

namespace Service

/-- Model of `Service.__new__` from the source: `PATH` is reset to `None` when
the server version compares below '2020.09.25.13', else the class-level
`PATH = ['service']` stands. -/
def PATH_after_new (server : String) : Option (List String) :=
  if compare_versions server "2020.09.25.13" < 0 then none
  else some ["service"]

end Service

/-! ## Minimum-server-version guards -/

/-- Error taxonomy relevant to guarded operations. -/
inductive ApiError where
  | NotFound
  | VersionMismatch
deriving DecidableEq, Repr

/-- Modelled from the spec: the `min_server_version` decorator from
`adcm_client.base` — before issuing any network request for the guarded
operation, fail with a version-mismatch error distinct from `NotFound`
when the connected server's version is below the minimum.  The guarded
body is given by the list of network requests it would issue and its
result; the first component of the output is the requests actually
issued. -/
def min_server_version (minv server : String) (body : List String × α) :
    List String × Except ApiError α :=
  if compare_versions server minv < 0 then ([], Except.error ApiError.VersionMismatch)
  else (body.1, Except.ok body.2)

namespace ServicePrototype

/-- Model of `ServicePrototype.service_list`, guarded by
`@min_server_version('2020.09.25.13')`. -/
def service_list (server : String) (body : List String × α) :
    List String × Except ApiError α :=
  min_server_version "2020.09.25.13" server body

end ServicePrototype

namespace Cluster

/-- Model of `Cluster.service_delete`, guarded by
`@min_server_version('2020.05.13.00')`. -/
def service_delete (server : String) (body : List String × α) :
    List String × Except ApiError α :=
  min_server_version "2020.05.13.00" server body

end Cluster

/-! ## Action.run error classification -/

/-- Substring containment on character lists (Python's `needle in s`). -/
def leadsWith : List Char → List Char → Bool
  | [], _ => true
  | _ :: _, [] => false
  | a :: as, b :: bs => a = b && leadsWith as bs

/-- Whether `pat` occurs contiguously inside `text`. -/
def hasSub (pat : List Char) : List Char → Bool
  | [] => pat.isEmpty
  | t :: ts => leadsWith pat (t :: ts) || hasSub pat ts

/-- Model of Python's `pat in s` on strings. -/
def strContains (pat s : String) : Bool := hasSub pat.toList s.toList

/-- The structured transport error (`coreapi.ErrorMessage`) as far as
`Action.run` inspects it: `getattr(error.error, 'title', '')` and
`getattr(error.error, '_data', {}).get('desc', '')`, both defaulting to
the empty string. -/
structure ErrorMessage where
  title : String
  desc : String
deriving DecidableEq, Repr

/-- The outcome `Action.run` turns a transport error into. -/
inductive RunError where
  | ActionHasIssues
  | Transport (e : ErrorMessage)
deriving DecidableEq, Repr

namespace Action

/-- The except-clause of `Action.run`: raise `ActionHasIssues` when the
error's title is '409 Conflict' and its description contains
'has issues'; re-raise every other transport error unchanged. -/
def run_on_error (e : ErrorMessage) : RunError :=
  if e.title = "409 Conflict" && strContains "has issues" e.desc then
    RunError.ActionHasIssues
  else
    RunError.Transport e

end Action

/-! ## Diagnostic log collection (`Task._log_jobs`) -/

/-- A decoded log-file response, as far as `_log_jobs` reads it. -/
structure LogResponse where
  format : Option String
  type : Option String
  content : Option String
deriving DecidableEq, Repr

/-- The outcome of one `self._api.client.get(file["url"])` call. -/
inductive FetchOutcome where
  | ok (resp : LogResponse)
  | err (code : String)
deriving DecidableEq, Repr

/-- The per-log-file loop of `Task._log_jobs` for one job: fetch each
log file's url; a transport error whose machine-readable code is
'LOG_NOT_FOUND' is swallowed and the loop continues with the remaining
files; any other transport error propagates.  The returned list holds
the responses emitted to the log. -/
def collect_logs (fetch : String → FetchOutcome) :
    List String → Except String (List LogResponse)
  | [] => Except.ok []
  | url :: rest =>
      match fetch url with
      | FetchOutcome.err code =>
          if code = "LOG_NOT_FOUND" then collect_logs fetch rest
          else Except.error code
      | FetchOutcome.ok resp =>
          match collect_logs fetch rest with
          | Except.ok rs => Except.ok (resp :: rs)
          | Except.error e => Except.error e

/-! ## Task parent reconstruction (`Task.action`) -/

/-- The entity kinds `TASK_PARENT` maps object-type names to. -/
inductive ParentKind where
  | cluster
  | service
  | host
  | provider
  | component
deriving DecidableEq, Repr

/-- The `TASK_PARENT` table from the source. -/
def TASK_PARENT : List (String × ParentKind) :=
  [("cluster", ParentKind.cluster),
   ("service", ParentKind.service),
   ("host", ParentKind.host),
   ("provider", ParentKind.provider),
   ("component", ParentKind.component)]

/-- The action handle `Task.action` builds: the reconstructed owning
object (kind plus the Task's `object_id` bound as `{object_type}_id`)
and the `action_id` filter. -/
structure ActionRef where
  parent_kind : ParentKind
  parent_id : Nat
  action_id : Nat
deriving DecidableEq, Repr

namespace Task

/-- Model of `Task.action`: look the task's `object_type` up in `TASK_PARENT`,
rebuild the owning object from the runtime type name and `object_id`,
and address the Action with the task's `action_id`.  An unsupported
`object_type` has no entry (a `KeyError` in Python). -/
def action (object_type : String) (object_id action_id : Nat) :
    Option ActionRef :=
  match (TASK_PARENT.find? (fun p => p.1 = object_type)) with
  | some p => some { parent_kind := p.2, parent_id := object_id,
                     action_id := action_id }
  | none => none

end Task

/-! ## ADCMClient minimum version check -/

namespace ADCMClient

/-- The `ADCMClient._MIN_VERSION` constant from the source. -/
def MIN_VERSION : String := "2019.02.20.00"

/-- Model of `ADCMClient._check_min_version`: raise `ADCMApiError` when
`rpm.compare_versions(_MIN_VERSION, server) > -1`, i.e. when the
server's advertised version compares less than or equal to the
client's minimum. -/
def check_min_version (server : String) : Except Unit Unit :=
  if compare_versions MIN_VERSION server > -1 then Except.error ()
  else Except.ok ()

end ADCMClient

/-! ## Lemmas about the comparison order -/

theorem cmpNatList_self (a : List Nat) : cmpNatList a a = Ordering.eq := by
  induction a with
  | nil => rfl
  | cons x xs ih => simp [cmpNatList, Nat.lt_irrefl, ih]

theorem compare_versions_lt_zero_iff (a b : String) :
    compare_versions a b < 0 ↔
      cmpNatList (parseVersion a) (parseVersion b) = Ordering.lt := by
  unfold compare_versions
  cases h : cmpNatList (parseVersion a) (parseVersion b) <;> simp

/-! ## Lemmas about the config merge -/

theorem updateObj_nil (d : List (String × Value)) : updateObj d [] = d := by
  simp [updateObj]

theorem updateObj_cons (d : List (String × Value)) (k : String) (v : Value)
    (rest : List (String × Value)) :
    updateObj d ((k, v) :: rest) = updateObj (updateEntry d k v) rest := by
  simp [updateObj]

theorem lookup_setKey_self (d : List (String × Value)) (k : String) (v : Value) :
    lookup (setKey d k v) k = some v := by
  induction d with
  | nil => simp [setKey, lookup]
  | cons hd tl ih =>
    obtain ⟨k', v'⟩ := hd
    by_cases h : k' = k <;> simp [setKey, lookup, h, ih]

theorem lookup_setKey_ne (d : List (String × Value)) (k k' : String) (v : Value)
    (h : k' ≠ k) : lookup (setKey d k' v) k = lookup d k := by
  induction d with
  | nil => simp [setKey, lookup, h]
  | cons hd tl ih =>
    obtain ⟨k0, v0⟩ := hd
    by_cases h0 : k0 = k' <;> simp [setKey, lookup, h0, h, ih]

theorem lookup_updateEntry_ne (d : List (String × Value)) (k k' : String)
    (v : Value) (h : k' ≠ k) : lookup (updateEntry d k' v) k = lookup d k := by
  cases v with
  | leaf s => simp [updateEntry, lookup_setKey_ne _ _ _ _ h]
  | obj uo =>
    cases hl : lookup d k' with
    | none => simp [updateEntry, hl, lookup_setKey_ne _ _ _ _ h]
    | some w => cases w <;> simp [updateEntry, hl, lookup_setKey_ne _ _ _ _ h]

theorem lookup_updateObj_not_mem (u : List (String × Value)) :
    ∀ (d : List (String × Value)) (k : String), k ∉ u.map Prod.fst →
      lookup (updateObj d u) k = lookup d k := by
  induction u with
  | nil => intro d k _; simp [updateObj_nil]
  | cons hd tl ih =>
    intro d k hk
    obtain ⟨k', v'⟩ := hd
    simp only [List.map_cons, List.mem_cons, not_or] at hk
    rw [updateObj_cons, ih (updateEntry d k' v') k hk.2,
      lookup_updateEntry_ne d k k' v' (fun he => hk.1 he.symm)]

/-! ## Claim theorems -/

/-- C9: the merge used by `config_set_diff` preserves every key of the
original config absent from the diff; for a key present in both, when
the old and the new values are both mappings they are merged
recursively key-by-key, otherwise the new value replaces the old one
wholesale.  (The diff is a Python dict, so its keys are distinct.) -/
theorem update_merge_key_semantics (u : List (String × Value)) :
    ∀ (d : List (String × Value)) (k : String), (u.map Prod.fst).Nodup →
      (lookup u k = none → lookup (updateObj d u) k = lookup d k) ∧
      (∀ uo dobj, lookup u k = some (Value.obj uo) →
          lookup d k = some (Value.obj dobj) →
          lookup (updateObj d u) k = some (Value.obj (updateObj dobj uo))) ∧
      (∀ v, lookup u k = some v →
          ((∀ uo, v ≠ Value.obj uo) ∨ ∀ dobj, lookup d k ≠ some (Value.obj dobj)) →
          lookup (updateObj d u) k = some v) := by
  induction u with
  | nil =>
    intro d k _
    refine ⟨fun _ => by simp [updateObj_nil], ?_, ?_⟩
    · intro uo dobj hu _; simp [lookup] at hu
    · intro v hu _; simp [lookup] at hu
  | cons hd tl ih =>
    intro d k hnd
    obtain ⟨k', v'⟩ := hd
    rw [List.map_cons, List.nodup_cons] at hnd
    obtain ⟨hk'notin, hnd'⟩ := hnd
    by_cases hkk : k' = k
    · subst hkk
      have hlu : lookup ((k', v') :: tl) k' = some v' := by simp [lookup]
      have hrest :
          lookup (updateObj (updateEntry d k' v') tl) k' =
            lookup (updateEntry d k' v') k' :=
        lookup_updateObj_not_mem tl _ k' hk'notin
      refine ⟨?_, ?_, ?_⟩
      · intro h; rw [hlu] at h; cases h
      · intro uo dobj hu hd0
        rw [hlu] at hu
        injection hu with hv
        subst hv
        rw [updateObj_cons, hrest]
        simp [updateEntry, hd0, lookup_setKey_self]
      · intro v hu hside
        rw [hlu] at hu
        injection hu with hv
        subst hv
        rw [updateObj_cons, hrest]
        rcases hside with hnotobj | hnoobj
        · cases v' with
          | leaf s => simp [updateEntry, lookup_setKey_self]
          | obj uo => exact absurd rfl (hnotobj uo)
        · cases v' with
          | leaf s => simp [updateEntry, lookup_setKey_self]
          | obj uo =>
            cases hl : lookup d k' with
            | none => simp [updateEntry, hl, lookup_setKey_self]
            | some w =>
              cases w with
              | leaf s => simp [updateEntry, hl, lookup_setKey_self]
              | obj dobj => exact absurd hl (hnoobj dobj)
    · have hlu : lookup ((k', v') :: tl) k = lookup tl k := by
        simp [lookup, hkk]
      have hde : lookup (updateEntry d k' v') k = lookup d k :=
        lookup_updateEntry_ne d k k' v' hkk
      have IH := ih (updateEntry d k' v') k hnd'
      refine ⟨?_, ?_, ?_⟩
      · intro h
        rw [hlu] at h
        rw [updateObj_cons, IH.1 h, hde]
      · intro uo dobj hu hd0
        rw [hlu] at hu
        rw [updateObj_cons]
        exact IH.2.1 uo dobj hu (by rw [hde]; exact hd0)
      · intro v hu hside
        rw [hlu] at hu
        rw [updateObj_cons]
        refine IH.2.2 v hu ?_
        rcases hside with h | h
        · exact Or.inl h
        · exact Or.inr (fun dobj hx => h dobj (hde ▸ hx))

/-- C9 witness: concrete merge of `\x7ba: 1, b: \x7bx: 1, y: 2\x7d, c: 3\x7d` with
the diff `\x7bb: \x7by: 9\x7d, c: 7\x7d`: `a` is preserved, `b` is merged
recursively, `c` is replaced wholesale. -/
theorem update_merge_key_semantics_witness :
    lookup (updateObj
        [("a", Value.leaf "1"),
         ("b", Value.obj [("x", Value.leaf "1"), ("y", Value.leaf "2")]),
         ("c", Value.leaf "3")]
        [("b", Value.obj [("y", Value.leaf "9")]), ("c", Value.leaf "7")])
      "a" = some (Value.leaf "1") ∧
    lookup (updateObj
        [("a", Value.leaf "1"),
         ("b", Value.obj [("x", Value.leaf "1"), ("y", Value.leaf "2")]),
         ("c", Value.leaf "3")]
        [("b", Value.obj [("y", Value.leaf "9")]), ("c", Value.leaf "7")])
      "b" = some (Value.obj (updateObj
        [("x", Value.leaf "1"), ("y", Value.leaf "2")]
        [("y", Value.leaf "9")])) ∧
    lookup (updateObj
        [("a", Value.leaf "1"),
         ("b", Value.obj [("x", Value.leaf "1"), ("y", Value.leaf "2")]),
         ("c", Value.leaf "3")]
        [("b", Value.obj [("y", Value.leaf "9")]), ("c", Value.leaf "7")])
      "c" = some (Value.leaf "7") := by
  refine ⟨?_, ?_, ?_⟩
  · exact (update_merge_key_semantics
      [("b", Value.obj [("y", Value.leaf "9")]), ("c", Value.leaf "7")]
      [("a", Value.leaf "1"),
       ("b", Value.obj [("x", Value.leaf "1"), ("y", Value.leaf "2")]),
       ("c", Value.leaf "3")] "a" (by simp)).1 (by simp [lookup])
  · exact (update_merge_key_semantics
      [("b", Value.obj [("y", Value.leaf "9")]), ("c", Value.leaf "7")]
      [("a", Value.leaf "1"),
       ("b", Value.obj [("x", Value.leaf "1"), ("y", Value.leaf "2")]),
       ("c", Value.leaf "3")] "b" (by simp)).2.1
      [("y", Value.leaf "9")]
      [("x", Value.leaf "1"), ("y", Value.leaf "2")]
      (by simp [lookup]) (by simp [lookup])
  · exact (update_merge_key_semantics
      [("b", Value.obj [("y", Value.leaf "9")]), ("c", Value.leaf "7")]
      [("a", Value.leaf "1"),
       ("b", Value.obj [("x", Value.leaf "1"), ("y", Value.leaf "2")]),
       ("c", Value.leaf "3")] "c" (by simp)).2.2
      (Value.leaf "7") (by simp [lookup])
      (Or.inl (fun uo h => by cases h))

/-- C5: `config_set_diff` reads the current config, merges the supplied
diff into it client-side, and writes the merged result; on an empty
diff the written config equals the previously-read config unchanged. -/
theorem config_set_diff_empty_idempotent :
    ∀ (r : RemoteConfig) (data : List (String × Value)),
      BaseObject.config_set_diff r data =
        ({ config := updateObj (BaseObject.config r) data },
          updateObj (BaseObject.config r) data) ∧
      BaseObject.config_set_diff r [] = (r, BaseObject.config r) := by
  intro r data
  constructor
  · rfl
  · simp [BaseObject.config_set_diff, BaseObject.config_set,
      BaseObject.config, updateObj_nil]

/-- C2 (amended): `Task.wait` and `Job.wait` stop polling and return as
soon as the fetched status first becomes a member of `_END_STATUSES`,
which is `["failed", "success"]` — "aborted" is not among the statuses
that stop the poll — and raise `WaitTimeout` when the status never
reaches one of them before the deadline. -/
theorem wait_stops_on_end_statuses :
    Task.END_STATUSES = ["failed", "success"] ∧
    Job.END_STATUSES = ["failed", "success"] ∧
    (∀ (trace : Nat → String) (n k : Nat), k < n →
        (∀ j, j < k → trace j ∉ Task.END_STATUSES) →
        trace k ∈ Task.END_STATUSES →
        Task.wait trace n = Except.ok (trace k)) ∧
    (∀ (trace : Nat → String) (n : Nat),
        (∀ j, j < n → trace j ∉ Task.END_STATUSES) →
        Task.wait trace n = Except.error PollError.WaitTimeout) ∧
    (∀ (trace : Nat → String) (n k : Nat), k < n →
        (∀ j, j < k → trace j ∉ Job.END_STATUSES) →
        trace k ∈ Job.END_STATUSES →
        Job.wait trace n = Except.ok (trace k)) ∧
    (∀ (trace : Nat → String) (n : Nat),
        (∀ j, j < n → trace j ∉ Job.END_STATUSES) →
        Job.wait trace n = Except.error PollError.WaitTimeout) := by
  refine ⟨rfl, rfl, ?_, ?_, ?_, ?_⟩
  · intro trace n k hk hbefore hhit
    have h := wait_for_attr_first_hit trace Task.END_STATUSES n 0 k hk
      (fun j hj => by simpa using hbefore j hj) (by simpa using hhit)
    simpa [Task.wait] using h
  · intro trace n hnever
    exact wait_for_attr_timeout trace Task.END_STATUSES n 0
      (fun j hj => by simpa using hnever j hj)
  · intro trace n k hk hbefore hhit
    have h := wait_for_attr_first_hit trace Job.END_STATUSES n 0 k hk
      (fun j hj => by simpa using hbefore j hj) (by simpa using hhit)
    simpa [Job.wait] using h
  · intro trace n hnever
    exact wait_for_attr_timeout trace Job.END_STATUSES n 0
      (fun j hj => by simpa using hnever j hj)

/-- C2 counterexample: a Task whose status is already the terminal value
"aborted" does not stop the poll — `"aborted"` is not in
`Task._END_STATUSES` and `wait` runs into `WaitTimeout`, refuting the
claim that the wait returns as soon as the status becomes any of
Success, Failed or Aborted. -/
theorem wait_aborted_times_out :
    Task.wait (fun _ => "aborted") 3 = Except.error PollError.WaitTimeout ∧
    "aborted" ∉ Task.END_STATUSES := by
  constructor
  · rfl
  · decide

/-- C2 witness: concrete runs — an immediately-successful task returns
within one poll, a never-terminal task times out at the deadline, and
likewise for jobs. -/
theorem wait_stops_on_end_statuses_witness :
    Task.wait (fun _ => "success") 3 = Except.ok "success" ∧
    Task.wait (fun _ => "running") 2 = Except.error PollError.WaitTimeout ∧
    Job.wait (fun _ => "failed") 1 = Except.ok "failed" ∧
    Job.wait (fun _ => "installing") 1 = Except.error PollError.WaitTimeout := by
  refine ⟨?_, ?_, ?_, ?_⟩
  · exact wait_stops_on_end_statuses.2.2.1 (fun _ => "success") 3 0
      (by decide) (fun j hj => absurd hj (Nat.not_lt_zero j)) (by decide)
  · exact wait_stops_on_end_statuses.2.2.2.1 (fun _ => "running") 2
      (fun j _ => show "running" ∉ Task.END_STATUSES by decide)
  · exact wait_stops_on_end_statuses.2.2.2.2.1 (fun _ => "failed") 1 0
      (by decide) (fun j hj => absurd hj (Nat.not_lt_zero j)) (by decide)
  · exact wait_stops_on_end_statuses.2.2.2.2.2 (fun _ => "installing") 1
      (fun j _ => show "installing" ∉ Job.END_STATUSES by decide)

/-- C1: when the polled status first reaches "failed", `try_wait` raises
`TaskFailed` while `wait` returns the literal string "failed" without
raising; when the first terminal status reached is anything else,
`try_wait` returns it and raises nothing. -/
theorem try_wait_failed_raises (trace : Nat → String) (n k : Nat)
    (hk : k < n) (hbefore : ∀ j, j < k → trace j ∉ Task.END_STATUSES) :
    (trace k = "failed" →
        Task.wait trace n = Except.ok "failed" ∧
        Task.try_wait trace n = Except.error PollError.TaskFailed) ∧
    (trace k ∈ Task.END_STATUSES → trace k ≠ "failed" →
        Task.try_wait trace n = Except.ok (trace k)) := by
  constructor
  · intro hf
    have hmem : trace k ∈ Task.END_STATUSES := by
      rw [hf]; decide
    have hwait : Task.wait trace n = Except.ok (trace k) := by
      have h := wait_for_attr_first_hit trace Task.END_STATUSES n 0 k hk
        (fun j hj => by simpa using hbefore j hj) (by simpa using hmem)
      simpa [Task.wait] using h
    rw [hf] at hwait
    exact ⟨hwait, by simp [Task.try_wait, hwait]⟩
  · intro hmem hne
    have hwait : Task.wait trace n = Except.ok (trace k) := by
      have h := wait_for_attr_first_hit trace Task.END_STATUSES n 0 k hk
        (fun j hj => by simpa using hbefore j hj) (by simpa using hmem)
      simpa [Task.wait] using h
    simp [Task.try_wait, hwait, hne]

/-- C1 witness: a task that polls straight to "failed" — `wait` returns
"failed", `try_wait` raises `TaskFailed`. -/
theorem try_wait_failed_raises_witness :
    Task.wait (fun _ => "failed") 1 = Except.ok "failed" ∧
    Task.try_wait (fun _ => "failed") 1 = Except.error PollError.TaskFailed :=
  (try_wait_failed_raises (fun _ => "failed") 1 0 (by decide)
    (fun j hj => absurd hj (Nat.not_lt_zero j))).1 rfl

/-- C3: the Version Gate selects the legacy implementation exactly when
the server version is numerically below the threshold, modern
otherwise; the choice is a pure function of the version pair; in
particular `Cluster.service`/`service_list` use the legacy subobject
path (and `Service.__new__` clears `PATH`) exactly when the server
version compares below '2020.09.25.13'. -/
theorem version_gate_selects_legacy_iff_below :
    ∀ server threshold : String,
      (legacy_server_implementaion server threshold = Impl.legacy ↔
        cmpNatList (parseVersion server) (parseVersion threshold) = Ordering.lt) ∧
      (legacy_server_implementaion server threshold = Impl.modern ↔
        ¬ cmpNatList (parseVersion server) (parseVersion threshold) = Ordering.lt) ∧
      (Cluster.service_path server = PathKind.subobject ↔
        legacy_server_implementaion server Cluster.SERVICE_THRESHOLD = Impl.legacy) ∧
      (Service.PATH_after_new server = none ↔
        Cluster.service_path server = PathKind.subobject) ∧
      (∀ server' threshold', server = server' → threshold = threshold' →
        legacy_server_implementaion server threshold =
          legacy_server_implementaion server' threshold') := by
  intro s t
  have hlt := compare_versions_lt_zero_iff s t
  have hg : legacy_server_implementaion s t = Impl.legacy ↔
      compare_versions s t < 0 := by
    unfold legacy_server_implementaion
    by_cases h : compare_versions s t < 0 <;> simp [h]
  refine ⟨hg.trans hlt, ?_, ?_, ?_, ?_⟩
  · by_cases h : compare_versions s t < 0
    · simp [legacy_server_implementaion, h, hlt.mp h]
    · have hne : ¬ cmpNatList (parseVersion s) (parseVersion t) = Ordering.lt :=
        fun hc => h (hlt.mpr hc)
      simp [legacy_server_implementaion, h, hne]
  · cases hgv : legacy_server_implementaion s Cluster.SERVICE_THRESHOLD <;>
      simp [Cluster.service_path, hgv]
  · by_cases h : compare_versions s "2020.09.25.13" < 0 <;>
      simp [Service.PATH_after_new, Cluster.service_path,
        legacy_server_implementaion, Cluster.SERVICE_THRESHOLD, h]
  · intro s' t' hs ht
    rw [hs, ht]

/-- C3 witness: one version below the threshold goes through the legacy
subobject path and clears the `Service` class `PATH`. -/
theorem version_gate_witness :
    Cluster.service_path "2020.09.25.12" = PathKind.subobject ∧
    Service.PATH_after_new "2020.09.25.12" = none := by
  have h := version_gate_selects_legacy_iff_below "2020.09.25.12"
    Cluster.SERVICE_THRESHOLD
  have hg : legacy_server_implementaion "2020.09.25.12" Cluster.SERVICE_THRESHOLD =
      Impl.legacy := h.1.mpr (by decide)
  have hp : Cluster.service_path "2020.09.25.12" = PathKind.subobject :=
    h.2.2.1.mpr hg
  exact ⟨hp, h.2.2.2.1.mpr hp⟩

/-- C6: an operation guarded by a minimum server version
(`ServicePrototype.service_list`, min '2020.09.25.13';
`Cluster.service_delete`, min '2020.05.13.00') fails on a server below
that minimum with a version-mismatch error distinct from `NotFound`,
before any network call of the guarded operation is made. -/
theorem min_version_guard_blocks {α β : Type} (server : String)
    (b1 : List String × α) (b2 : List String × β) :
    (compare_versions server "2020.09.25.13" < 0 →
        ServicePrototype.service_list server b1 =
          ([], Except.error ApiError.VersionMismatch)) ∧
    (compare_versions server "2020.05.13.00" < 0 →
        Cluster.service_delete server b2 =
          ([], Except.error ApiError.VersionMismatch)) ∧
    ApiError.VersionMismatch ≠ ApiError.NotFound := by
  refine ⟨?_, ?_, by decide⟩
  · intro h
    simp [ServicePrototype.service_list, min_server_version, h]
  · intro h
    simp [Cluster.service_delete, min_server_version, h]

/-- C6 witness: against a 2019 server both guarded operations fail with
`VersionMismatch` and issue none of their network requests. -/
theorem min_version_guard_blocks_witness :
    ServicePrototype.service_list "2019.06.01.00" (["list-services"], (0 : Nat)) =
      ([], Except.error ApiError.VersionMismatch) ∧
    Cluster.service_delete "2019.06.01.00" (["delete-service"], (0 : Nat)) =
      ([], Except.error ApiError.VersionMismatch) := by
  have h := min_version_guard_blocks "2019.06.01.00"
    (["list-services"], (0 : Nat)) (["delete-service"], (0 : Nat))
  exact ⟨h.1 (by decide), h.2.1 (by decide)⟩

/-- C7: `Action.run` raises `ActionHasIssues` exactly when the transport
error's title is '409 Conflict' and its description contains
'has issues'; every other transport error propagates unchanged. -/
theorem action_run_conflict_classification (e : ErrorMessage) :
    (Action.run_on_error e = RunError.ActionHasIssues ↔
      (e.title = "409 Conflict" ∧ strContains "has issues" e.desc = true)) ∧
    (¬(e.title = "409 Conflict" ∧ strContains "has issues" e.desc = true) →
      Action.run_on_error e = RunError.Transport e) := by
  constructor
  · by_cases ht : e.title = "409 Conflict" <;>
      by_cases hc : strContains "has issues" e.desc = true <;>
        simp [Action.run_on_error, ht, hc]
  · intro hn
    by_cases ht : e.title = "409 Conflict"
    · by_cases hc : strContains "has issues" e.desc = true
      · exact absurd ⟨ht, hc⟩ hn
      · simp [Action.run_on_error, ht, hc]
    · simp [Action.run_on_error, ht]

/-- C7 witness: a conflict whose description mentions issues is turned
into `ActionHasIssues`; a different transport error passes through
unchanged. -/
theorem action_run_conflict_classification_witness :
    Action.run_on_error ⟨"409 Conflict", "cluster with id 1 has issues"⟩ =
      RunError.ActionHasIssues ∧
    Action.run_on_error ⟨"404 Not Found", "no such action"⟩ =
      RunError.Transport ⟨"404 Not Found", "no such action"⟩ := by
  have h1 := action_run_conflict_classification
    ⟨"409 Conflict", "cluster with id 1 has issues"⟩
  have h2 := action_run_conflict_classification ⟨"404 Not Found", "no such action"⟩
  exact ⟨h1.1.mpr ⟨rfl, by decide⟩, h2.2 (by decide)⟩

/-- C8: for every Task whose `object_type` names one of the supported
parent kinds, `Task.action()` reconstructs the owning object from the
runtime type name and `object_id` and addresses the Action identified
by the Task's `action_id`. -/
theorem task_action_reconstructs_parent (ot : String) (oid aid : Nat)
    (h : ∃ k, (ot, k) ∈ TASK_PARENT) :
    ∃ k, (ot, k) ∈ TASK_PARENT ∧
      Task.action ot oid aid =
        some { parent_kind := k, parent_id := oid, action_id := aid } := by
  obtain ⟨k, hk⟩ := h
  simp only [TASK_PARENT, List.mem_cons, List.not_mem_nil, or_false,
    Prod.mk.injEq] at hk
  rcases hk with ⟨h1, h2⟩ | ⟨h1, h2⟩ | ⟨h1, h2⟩ | ⟨h1, h2⟩ | ⟨h1, h2⟩ <;>
    subst h1 <;> subst h2
  · exact ⟨ParentKind.cluster, by decide, by rfl⟩
  · exact ⟨ParentKind.service, by decide, by rfl⟩
  · exact ⟨ParentKind.host, by decide, by rfl⟩
  · exact ⟨ParentKind.provider, by decide, by rfl⟩
  · exact ⟨ParentKind.component, by decide, by rfl⟩

/-- C8 witness: a service-owned task rebuilds its Service parent and
the Action with the task's identifiers. -/
theorem task_action_reconstructs_parent_witness :
    ∃ k, ("service", k) ∈ TASK_PARENT ∧
      Task.action "service" 7 3 =
        some { parent_kind := k, parent_id := 7, action_id := 3 } :=
  task_action_reconstructs_parent "service" 7 3 ⟨ParentKind.service, by decide⟩

/-- C10: `ADCMClient._check_min_version` raises `ADCMApiError` exactly
when the server's advertised version compares less than or equal to
the client minimum '2019.02.20.00' — a server exactly at the minimum
is rejected. -/
theorem check_min_version_rejects_at_or_below :
    ∀ server : String,
      (ADCMClient.check_min_version server = Except.error () ↔
        cmpNatList (parseVersion server) (parseVersion ADCMClient.MIN_VERSION) ≠
          Ordering.gt) ∧
      ADCMClient.check_min_version ADCMClient.MIN_VERSION = Except.error () := by
  intro server
  constructor
  · unfold ADCMClient.check_min_version compare_versions
    rw [cmpNatList_swap (parseVersion ADCMClient.MIN_VERSION) (parseVersion server)]
    cases hc : cmpNatList (parseVersion ADCMClient.MIN_VERSION)
        (parseVersion server) <;>
      simp [hc, Ordering.swap]
  · unfold ADCMClient.check_min_version compare_versions
    simp [cmpNatList_self]

/-- C10 witness: a server older than the minimum is rejected. -/
theorem check_min_version_witness :
    ADCMClient.check_min_version "2018.12.01.00" = Except.error () :=
  (check_min_version_rejects_at_or_below "2018.12.01.00").1.mpr (by decide)

/-- C4: during diagnostic log collection, a per-log-file transport
error with code LOG_NOT_FOUND is swallowed and collection continues
with the remaining log files, while any transport error with a
different code propagates. -/
theorem log_collection_swallows_log_not_found
    (fetch : String → FetchOutcome) (url : String) (rest : List String) :
    (fetch url = FetchOutcome.err "LOG_NOT_FOUND" →
        collect_logs fetch (url :: rest) = collect_logs fetch rest) ∧
    (∀ code, fetch url = FetchOutcome.err code → code ≠ "LOG_NOT_FOUND" →
        collect_logs fetch (url :: rest) = Except.error code) ∧
    (∀ resp rs, fetch url = FetchOutcome.ok resp →
        collect_logs fetch rest = Except.ok rs →
        collect_logs fetch (url :: rest) = Except.ok (resp :: rs)) := by
  refine ⟨?_, ?_, ?_⟩
  · intro h
    simp [collect_logs, h]
  · intro code h hne
    simp [collect_logs, h, hne]
  · intro resp rs h hrest
    simp [collect_logs, h, hrest]

/-- C4 witness: the scenario from the spec — of two log files one
reports LOG_NOT_FOUND, and collection still yields the content of the
other. -/
theorem log_collection_witness :
    collect_logs
      (fun u => if u = "ansible-log" then FetchOutcome.err "LOG_NOT_FOUND"
        else FetchOutcome.ok ⟨some "txt", some "stdout", some "other log content"⟩)
      ["ansible-log", "stdout-log"] =
    Except.ok [⟨some "txt", some "stdout", some "other log content"⟩] := by
  have h := log_collection_swallows_log_not_found
    (fun u => if u = "ansible-log" then FetchOutcome.err "LOG_NOT_FOUND"
      else FetchOutcome.ok ⟨some "txt", some "stdout", some "other log content"⟩)
    "ansible-log" ["stdout-log"]
  rw [h.1 (by rfl)]
  rfl

end ADCM
